import Mathlib

set_option maxRecDepth 8192

/-!
Verification development for the Smartika hub client.

Byte buffers (`Node.js` `Buffer` values) are shallowly embedded as `List Nat`,
with the convention that every element is `< 256`.  Multi-byte integers on the
wire are big-endian and unsigned, exactly as in the source
(`src/SmartikaProtocol.js`, `src/SmartikaCrypto.js`,
`src/SmartikaHubConnection.js`).
-/

namespace Smartika

/-- Big-endian read of a 16-bit word at `off` (source: `Buffer.readUInt16BE`).
Out-of-range positions read as 0; the fallible variant used by the
per-command decoders is `readU16BEx` below. -/
def readU16BE (p : List Nat) (off : Nat) : Nat :=
  256 * p.getD off 0 + p.getD (off + 1) 0

/-- Big-endian read of a 32-bit word at `off` (source: `Buffer.readUInt32BE`). -/
def readU32BE (p : List Nat) (off : Nat) : Nat :=
  256 ^ 3 * p.getD off 0 + 256 ^ 2 * p.getD (off + 1) 0 +
    256 * p.getD (off + 2) 0 + p.getD (off + 3) 0

/-- Big-endian two-byte encoding of a 16-bit value (source:
`Buffer.writeUInt16BE`): high byte then low byte, masked to byte range as
`Buffer` cell storage does. -/
def be16 (n : Nat) : List Nat :=
  [n / 256 % 256, n % 256]

/-- Embedding of `buffer.subarray(a, b)` (clamping, never throwing). -/
def subarray (p : List Nat) (a b : Nat) : List Nat :=
  (p.drop a).take (b - a)

/-- XOR checksum of a buffer (source: `computeChecksum`, running `fcs ^= data[i]`). -/
def computeChecksum (data : List Nat) : Nat :=
  data.foldl (fun fcs b => fcs ^^^ b) 0

/-- Protocol constant `START_MARK_REQUEST = 0xFE00`. -/
def START_MARK_REQUEST : Nat := 0xFE00

/-- Protocol constant `START_MARK_RESPONSE = 0xFE01`. -/
def START_MARK_RESPONSE : Nat := 0xFE01

/-- Protocol constant `END_MARK = 0x00FF`. -/
def END_MARK : Nat := 0x00FF

/-- Decoded frame (source: the object returned by `parsePacket`). -/
structure Packet where
  cmdId : Nat
  dataLen : Nat
  listLen : Nat
  data : List Nat
  isRequest : Bool
  deriving Repr, DecidableEq

/-- The five `throw` sites of `parsePacket`, in source order:
`'Packet too short'`, `'Invalid start mark'`, `'Packet data incomplete'`,
`'Invalid end mark'`, `'Checksum mismatch'`. -/
inductive ParseError where
  | tooShort
  | badStartMark
  | incomplete
  | badEndMark
  | checksumMismatch
  deriving Repr, DecidableEq

/-- Embedding of `createPacket(cmdId, data, listLen, isRequest)`: the source
allocates `2 + (6 + dataLen) + 1 + 2` bytes and writes start mark, the
FCS-covered region (`cmdId ‖ dataLen ‖ listLen ‖ data`), the checksum byte and
the end mark at consecutive offsets, which is exactly this concatenation. -/
def createPacket (cmdId : Nat) (data : List Nat) (listLen : Nat)
    (isRequest : Bool) : List Nat :=
  let startMark := if isRequest then START_MARK_REQUEST else START_MARK_RESPONSE
  let fcsData := be16 cmdId ++ be16 data.length ++ be16 listLen ++ data
  let fcs := computeChecksum fcsData
  be16 startMark ++ fcsData ++ [fcs] ++ be16 END_MARK

/-- Embedding of `parsePacket(packet)`, check for check in source order. -/
def parsePacket (packet : List Nat) : Except ParseError Packet :=
  if packet.length < 11 then .error .tooShort
  else
    let startMark := readU16BE packet 0
    if ¬(startMark = START_MARK_REQUEST ∨ startMark = START_MARK_RESPONSE) then
      .error .badStartMark
    else
      let cmdId := readU16BE packet 2
      let dataLen := readU16BE packet 4
      let listLen := readU16BE packet 6
      if packet.length < 8 + dataLen + 3 then .error .incomplete
      else
        let data := subarray packet 8 (8 + dataLen)
        let fcs := packet.getD (8 + dataLen) 0
        let endMark := readU16BE packet (8 + dataLen + 1)
        if endMark ≠ END_MARK then .error .badEndMark
        else
          let expectedFcs := computeChecksum (subarray packet 2 (8 + dataLen))
          if fcs ≠ expectedFcs then .error .checksumMismatch
          else .ok ⟨cmdId, dataLen, listLen, data,
            decide (startMark = START_MARK_REQUEST)⟩

/-! Per-command decoders.  These call `parsePacket`, check the command id
(`throw 'Unexpected command ID'`), then walk the payload.  Unlike
`buffer.subarray`, the `Buffer.readUIntNBE` methods throw `ERR_OUT_OF_RANGE`
when the read would leave the buffer, so the decoders' payload reads are
embedded fallibly. -/

/-- Errors a per-command decoder can throw: a frame-decode failure, the
`'Unexpected command ID'` throw, or Node's `ERR_OUT_OF_RANGE` from a
`Buffer.readUIntNBE` call past the end of `data`. -/
inductive DecodeError where
  | parse (e : ParseError)
  | unexpectedCommand
  | outOfRange
  deriving Repr, DecidableEq

/-- Fallible `data.readUInt16BE(off)`: Node throws `ERR_OUT_OF_RANGE` unless
`off + 2 ≤ data.length`. -/
def readU16BEx (p : List Nat) (off : Nat) : Except DecodeError Nat :=
  if off + 2 ≤ p.length then .ok (readU16BE p off) else .error .outOfRange

/-- Fallible `data.readUInt32BE(off)`. -/
def readU32BEx (p : List Nat) (off : Nat) : Except DecodeError Nat :=
  if off + 4 ≤ p.length then .ok (readU32BE p off) else .error .outOfRange

/-- The unguarded element loop shared by `parseDbListDeviceResponse`,
`parseGroupReadResponse` and the other two-byte-per-element decoders:
`for (let i = 0; i < listLen; i++) out.push(data.readUInt16BE(start + i * 2))`.
`fuel` is the number of iterations still to run (`listLen - i`). -/
def readU16Loop (data : List Nat) (start : Nat) : Nat → Nat → Except DecodeError (List Nat)
  | _, 0 => .ok []
  | i, fuel + 1 => do
    let v ← readU16BEx data (start + i * 2)
    let rest ← readU16Loop data start (i + 1) fuel
    pure (v :: rest)

/-- Record pushed by `parseDeviceDiscoveryResponse` (the derived
`typeName`/`category` strings, pure lookups in static tables, are omitted). -/
structure DiscoveredDevice where
  shortAddress : Nat
  typeId : Nat
  macAddress : List Nat
  deriving Repr, DecidableEq

/-- The guarded element loop of `parseDeviceDiscoveryResponse`:
`for (let i = 0; i < listLen && (i * deviceSize) < data.length; i++)` with
`deviceSize = 14`; each iteration reads `shortAddress` (u16), `typeId` (u32)
and the 8-byte mac via clamping `subarray`. -/
def discoveryLoop (data : List Nat) : Nat → Nat → Except DecodeError (List DiscoveredDevice)
  | _, 0 => .ok []
  | i, fuel + 1 =>
    if i * 14 < data.length then do
      let shortAddress ← readU16BEx data (i * 14)
      let typeId ← readU32BEx data (i * 14 + 2)
      let macAddress := subarray data (i * 14 + 6) (i * 14 + 14)
      let rest ← discoveryLoop data (i + 1) fuel
      pure (⟨shortAddress, typeId, macAddress⟩ :: rest)
    else .ok []

/-- Embedding of `parseDeviceDiscoveryResponse(packet)` (`CMD.DEVICE_DISCOVERY = 0x0001`). -/
def parseDeviceDiscoveryResponse (packet : List Nat) :
    Except DecodeError (List DiscoveredDevice) := do
  let r ← (parsePacket packet).mapError .parse
  if r.cmdId ≠ 0x0001 then throw .unexpectedCommand
  discoveryLoop r.data 0 r.listLen

/-- Embedding of `parseDbListDeviceResponse(packet)` (`CMD.DB_LIST_DEVICE = 0x0200`):
the element loop runs exactly `listLen` times with no cursor guard. -/
def parseDbListDeviceResponse (packet : List Nat) :
    Except DecodeError (List Nat) := do
  let r ← (parsePacket packet).mapError .parse
  if r.cmdId ≠ 0x0200 then throw .unexpectedCommand
  readU16Loop r.data 0 0 r.listLen

/-- Result of `parseGroupReadResponse`. -/
structure GroupReadResult where
  groupId : Nat
  success : Bool
  deviceIds : List Nat
  deriving Repr, DecidableEq

/-- Embedding of `parseGroupReadResponse(packet)` (`CMD.GROUP_READ = 0x0403`):
reads `groupId` at offset 0 unconditionally, then loops exactly `listLen`
times over offsets `2 + i * 2` with no cursor guard. -/
def parseGroupReadResponse (packet : List Nat) :
    Except DecodeError GroupReadResult := do
  let r ← (parsePacket packet).mapError .parse
  if r.cmdId ≠ 0x0403 then throw .unexpectedCommand
  let groupId ← readU16BEx r.data 0
  let deviceIds ← readU16Loop r.data 2 0 r.listLen
  pure ⟨groupId, decide (groupId ≠ 0xFFFF), deviceIds⟩

end Smartika

namespace AES128

/-! The source delegates AES to OpenSSL via Node's `crypto` module
(`crypto.createCipheriv('aes-128-ecb' | 'aes-128-cbc', …)`).  This section is a
shallow embedding of standard FIPS-197 AES-128: blocks are 16-byte `List Nat`
values in the usual column-major byte order.  The file checks it against the
FIPS-197 appendix C.1 vector (`aes128_fips197_encrypt_vector` below). -/

/-- The AES forward S-box, packed little-endian into one natural number:
byte `i` of the table is `(SBOX_PACKED >>> (8 * i)) % 256`. -/
def SBOX_PACKED : Nat :=
  0x16bb54b00f2d99416842e6bf0d89a18cdf2855cee9871e9b948ed9691198f8e19e1dc186b95735610ef6034866b53e708a8bbd4b1f74dde8c6b4a61c2e2578ba08ae7a65eaf4566ca94ed58d6d37c8e779e4959162acd3c25c2406490a3a32e0db0b5ede14b8ee4688902a22dc4f816073195d643d7ea7c41744975fec130ccdd2f3ff1021dab6bcf5389d928f40a351a89f3c507f02f94585334d43fbaaefd0cf584c4a39becb6a5bb1fc20ed00d153842fe329b3d63b52a05a6e1b1a2c830975b227ebe28012079a059618c323c7041531d871f1e5a534ccf73f362693fdb7c072a49cafa2d4adf04759fa7dc982ca76abd7fe2b670130c56f6bf27b777c63

/-- The AES inverse S-box, packed the same way. -/
def INV_SBOX_PACKED : Nat :=
  0x7d0c2155631469e126d677ba7e042b17619953833cbbebc8b0f52aae4d3be0a0ef9cc9939f7ae52d0d4ab519a97f51605fec8027591012b131c7078833a8dd1ff45acd78fec0db9a2079d2c64b3e56fc1bbe18aa0e62b76f89c5291d711af1476edf751ce837f9e28535ade72274ac9673e6b4f0cecff297eadc674f4111913a6b8a130103bdafc1020f3fca8f1e2cd00645b3b80558e4f70ad3bc8c00abd890849d8da75746155edab9edfd5048706c92b6655dcc5ca4d41698688664f6f87225d18b6d49a25b76b224d92866a12e084ec3fa420b954cee3d23c2a632947b54cbe9dec444438e3487ff2f9b8239e37cfbd7f3819ea340bf38a53630d56a0952

/-- Forward S-box lookup. -/
def sbox (b : Nat) : Nat := SBOX_PACKED >>> (8 * b) % 256

/-- Inverse S-box lookup. -/
def invSbox (b : Nat) : Nat := INV_SBOX_PACKED >>> (8 * b) % 256

/-- Multiplication by `x` in GF(2^8) modulo `x^8 + x^4 + x^3 + x + 1`. -/
def xtime (b : Nat) : Nat :=
  if b < 128 then 2 * b else 2 * b ^^^ 0x11B

/-- GF(2^8) product, 8 shift-and-add steps. -/
def gmulAux : Nat → Nat → Nat → Nat
  | 0, _, _ => 0
  | n + 1, a, b => (if b % 2 = 1 then a else 0) ^^^ gmulAux n (xtime a) (b / 2)

/-- GF(2^8) product of two bytes. -/
def gmul (a b : Nat) : Nat := gmulAux 8 a b

/-- SubBytes. -/
def subBytes (s : List Nat) : List Nat := s.map sbox

/-- InvSubBytes. -/
def invSubBytes (s : List Nat) : List Nat := s.map invSbox

/-- ShiftRows on a column-major 16-byte block: `out[4c+r] = in[4((c+r)%4)+r]`. -/
def shiftRows (s : List Nat) : List Nat :=
  [s.getD 0 0, s.getD 5 0, s.getD 10 0, s.getD 15 0,
   s.getD 4 0, s.getD 9 0, s.getD 14 0, s.getD 3 0,
   s.getD 8 0, s.getD 13 0, s.getD 2 0, s.getD 7 0,
   s.getD 12 0, s.getD 1 0, s.getD 6 0, s.getD 11 0]

/-- InvShiftRows: `out[4c+r] = in[4((c-r)%4)+r]`. -/
def invShiftRows (s : List Nat) : List Nat :=
  [s.getD 0 0, s.getD 13 0, s.getD 10 0, s.getD 7 0,
   s.getD 4 0, s.getD 1 0, s.getD 14 0, s.getD 11 0,
   s.getD 8 0, s.getD 5 0, s.getD 2 0, s.getD 15 0,
   s.getD 12 0, s.getD 9 0, s.getD 6 0, s.getD 3 0]

/-- MixColumns on one 4-byte column. -/
def mixCol (a0 a1 a2 a3 : Nat) : List Nat :=
  [gmul a0 2 ^^^ gmul a1 3 ^^^ a2 ^^^ a3,
   a0 ^^^ gmul a1 2 ^^^ gmul a2 3 ^^^ a3,
   a0 ^^^ a1 ^^^ gmul a2 2 ^^^ gmul a3 3,
   gmul a0 3 ^^^ a1 ^^^ a2 ^^^ gmul a3 2]

/-- InvMixColumns on one 4-byte column. -/
def invMixCol (a0 a1 a2 a3 : Nat) : List Nat :=
  [gmul a0 14 ^^^ gmul a1 11 ^^^ gmul a2 13 ^^^ gmul a3 9,
   gmul a0 9 ^^^ gmul a1 14 ^^^ gmul a2 11 ^^^ gmul a3 13,
   gmul a0 13 ^^^ gmul a1 9 ^^^ gmul a2 14 ^^^ gmul a3 11,
   gmul a0 11 ^^^ gmul a1 13 ^^^ gmul a2 9 ^^^ gmul a3 14]

/-- Apply a per-column transform to all four columns of a block. -/
def mapCols (f : Nat → Nat → Nat → Nat → List Nat) (s : List Nat) : List Nat :=
  f (s.getD 0 0) (s.getD 1 0) (s.getD 2 0) (s.getD 3 0) ++
  f (s.getD 4 0) (s.getD 5 0) (s.getD 6 0) (s.getD 7 0) ++
  f (s.getD 8 0) (s.getD 9 0) (s.getD 10 0) (s.getD 11 0) ++
  f (s.getD 12 0) (s.getD 13 0) (s.getD 14 0) (s.getD 15 0)

/-- MixColumns. -/
def mixColumns (s : List Nat) : List Nat := mapCols mixCol s

/-- InvMixColumns. -/
def invMixColumns (s : List Nat) : List Nat := mapCols invMixCol s

/-- AddRoundKey: byte-wise XOR. -/
def addRoundKey (s rk : List Nat) : List Nat :=
  List.zipWith (fun a b => a ^^^ b) s rk

/-- Round constants for AES-128 key expansion. -/
def rcon : List Nat := [0x01, 0x02, 0x04, 0x08, 0x10, 0x20, 0x40, 0x80, 0x1B, 0x36]

/-- One key-expansion step: append word `w[n]` given the schedule so far. -/
def expandStep (ws : List (List Nat)) : List (List Nat) :=
  let n := ws.length
  let prev := ws.getD (n - 1) []
  let four := ws.getD (n - 4) []
  let temp :=
    if n % 4 = 0 then
      let rotated := prev.drop 1 ++ prev.take 1
      let subbed := rotated.map sbox
      [subbed.getD 0 0 ^^^ rcon.getD (n / 4 - 1) 0, subbed.getD 1 0,
       subbed.getD 2 0, subbed.getD 3 0]
    else prev
  ws ++ [List.zipWith (fun a b => a ^^^ b) four temp]

/-- AES-128 key expansion: the 44 four-byte words `w[0..43]`. -/
def keyWords (key : List Nat) : List (List Nat) :=
  (List.range 40).foldl (fun ws _ => expandStep ws)
    [key.take 4, (key.drop 4).take 4, (key.drop 8).take 4, (key.drop 12).take 4]

/-- Round key `r` (16 bytes) from the expanded schedule. -/
def roundKey (ws : List (List Nat)) (r : Nat) : List Nat :=
  ((ws.drop (4 * r)).take 4).flatten

/-- AES-128 block encryption (FIPS-197 cipher). -/
def encryptBlock (key block : List Nat) : List Nat :=
  let ws := keyWords key
  let s0 := addRoundKey block (roundKey ws 0)
  let s9 := (List.range 9).foldl
    (fun s r => addRoundKey (mixColumns (shiftRows (subBytes s))) (roundKey ws (r + 1))) s0
  addRoundKey (shiftRows (subBytes s9)) (roundKey ws 10)

/-- AES-128 block decryption (FIPS-197 inverse cipher). -/
def decryptBlock (key block : List Nat) : List Nat :=
  let ws := keyWords key
  let s10 := addRoundKey block (roundKey ws 10)
  let s1 := (List.range 9).foldl
    (fun s r => invMixColumns (addRoundKey (invShiftRows (invSubBytes s)) (roundKey ws (9 - r)))) s10
  addRoundKey (invShiftRows (invSubBytes s1)) (roundKey ws 0)

/-- Split a buffer into 16-byte blocks (`fuel` bounds the recursion). -/
def toBlocksAux : Nat → List Nat → List (List Nat)
  | 0, _ => []
  | _, [] => []
  | fuel + 1, l => l.take 16 :: toBlocksAux fuel (l.drop 16)

/-- Split a buffer into 16-byte blocks. -/
def toBlocks (l : List Nat) : List (List Nat) := toBlocksAux l.length l

/-- CBC decryption chaining: plaintext block `i` is
`decryptBlock key c_i XOR c_(i-1)`, seeded with the IV. -/
def cbcDecryptChain (key : List Nat) : List Nat → List (List Nat) → List (List Nat)
  | _, [] => []
  | prev, c :: cs =>
    List.zipWith (fun a b => a ^^^ b) (decryptBlock key c) prev :: cbcDecryptChain key c cs

/-- AES-128-CBC decryption of a whole buffer with explicit IV, no padding. -/
def cbcDecrypt (key iv msg : List Nat) : List Nat :=
  (cbcDecryptChain key iv (toBlocks msg)).flatten

/-- CBC encryption chaining: ciphertext block `i` is
`encryptBlock key (p_i XOR c_(i-1))`, seeded with the IV. -/
def cbcEncryptChain (key : List Nat) : List Nat → List (List Nat) → List (List Nat)
  | _, [] => []
  | prev, p :: ps =>
    let c := encryptBlock key (List.zipWith (fun a b => a ^^^ b) p prev)
    c :: cbcEncryptChain key c ps

/-- AES-128-CBC encryption of a whole buffer with explicit IV, no padding. -/
def cbcEncrypt (key iv msg : List Nat) : List Nat :=
  (cbcEncryptChain key iv (toBlocks msg)).flatten

end AES128

namespace Smartika

/-- The fixed 128-byte private-key constant `PRIVATE_KEY` of `SmartikaCrypto.js`. -/
def PRIVATE_KEY : List Nat :=
  [0x42, 0x6B, 0xD6, 0xCD, 0x00, 0x59, 0x5B, 0x03, 0xFC, 0xCB, 0xF4, 0xDD, 0x09, 0x25, 0x85, 0x1B,
   0x3F, 0x91, 0x93, 0x81, 0xB3, 0x19, 0xB2, 0xD1, 0x41, 0x5B, 0xF7, 0x7D, 0xFD, 0x4F, 0x4C, 0xD3,
   0x5E, 0x00, 0xE1, 0xC0, 0x89, 0xA1, 0x94, 0xD4, 0xF6, 0xEA, 0x77, 0xAA, 0xC5, 0x1B, 0x66, 0x67,
   0xEE, 0x96, 0xCD, 0x6E, 0xC3, 0x7D, 0x8A, 0xF1, 0xD0, 0x2A, 0x10, 0x98, 0xA7, 0xF5, 0xB1, 0xC3,
   0x90, 0x3A, 0x4A, 0xB7, 0xB9, 0xE5, 0x0E, 0x47, 0xE5, 0xA0, 0xD2, 0x1B, 0x17, 0xD0, 0x8B, 0x5A,
   0x55, 0x7C, 0x50, 0xBA, 0x02, 0x66, 0xA7, 0xC1, 0xCC, 0x4D, 0x67, 0x3E, 0xD1, 0xB7, 0xEE, 0xC0,
   0xE3, 0x34, 0x00, 0x1F, 0x89, 0x7A, 0x0E, 0xC7, 0xC0, 0x49, 0x2F, 0xEE, 0x01, 0x7B, 0x94, 0x52,
   0x93, 0x22, 0xC0, 0xB9, 0xBB, 0x2C, 0x46, 0xD1, 0xBD, 0x65, 0x5F, 0x91, 0x56, 0x4B, 0x17, 0xCD]

/-- The fixed 16-byte base constant `BASE_KEY` of `SmartikaCrypto.js`. -/
def BASE_KEY : List Nat :=
  [0xB9, 0x43, 0x34, 0xB5, 0xBE, 0xDE, 0x9E, 0x05, 0x58, 0xE2, 0xE6, 0xD8, 0xCE, 0xBA, 0x7E, 0x47]

/-- The fixed 16-byte initialization vector `IV` of `SmartikaCrypto.js`. -/
def IV : List Nat :=
  [0xA7, 0x2D, 0xD1, 0x29, 0x20, 0xDF, 0xAD, 0x61, 0x82, 0x03, 0x98, 0xFA, 0x9E, 0xEF, 0x59, 0x20]

/-- The `throw` sites of `SmartikaCrypto.js` together with the errors Node's
`crypto` module itself raises before any cipher logic runs:
`'MAC address must be 6 bytes'` (`generateKey`), `'Invalid MAC address format'`
(`parseMacAddress`), `createDecipheriv`'s invalid-key-length error and
`decipher.final`'s wrong-final-block-length error. -/
inductive CryptoError where
  | invalidInput
  | formatError
  | invalidKeyLength
  | badBlockLength
  deriving Repr, DecidableEq

/-- Embedding of `generateKey(macAddress)`: length check, seed four positions
of a copy of `BASE_KEY` from the mac (`baseKey[9] = mac[0]`,
`baseKey[7] = mac[3]`, `baseKey[13] = mac[4]`, `baseKey[3] = mac[5]`), then
eight unpadded AES-128-ECB passes, pass `i` keyed by
`PRIVATE_KEY.subarray(i * 16, (i + 1) * 16)`, each input the previous output. -/
def generateKey (macAddress : List Nat) : Except CryptoError (List Nat) :=
  if macAddress.length ≠ 6 then .error .invalidInput
  else
    let baseKey := ((((BASE_KEY.set 9 (macAddress.getD 0 0)).set 7
      (macAddress.getD 3 0)).set 13 (macAddress.getD 4 0)).set 3
      (macAddress.getD 5 0))
    .ok ((List.range 8).foldl
      (fun result i =>
        AES128.encryptBlock (subarray PRIVATE_KEY (i * 16) (i * 16 + 16)) result)
      baseKey)

/-- Embedding of `pad(message)`: align to 16 bytes with random trailing bytes.
The entropy `crypto.randomBytes` consumes is passed in explicitly as
`padding` (only its first `16 - len % 16` bytes are used). -/
def pad (message padding : List Nat) : List Nat :=
  if message.length % 16 = 0 then message
  else message ++ padding.take (16 - message.length % 16)

/-- Embedding of `encrypt(message, key)`: pad, then AES-128-CBC with the
fixed `IV`, no cipher-level padding. -/
def encrypt (message key padding : List Nat) : List Nat :=
  AES128.cbcEncrypt key IV (pad message padding)

/-- Embedding of `decrypt(message, key)`: AES-128-CBC decryption with the
fixed `IV` (Node throws before any output if the key is not 16 bytes or the
ciphertext is not block-aligned), then the header-based truncation: when the
result is longer than 11 bytes, starts with a valid start mark and
`cmdLen = dataLen + 11` fits, truncate to `cmdLen`; otherwise return the
decrypted buffer unmodified. -/
def decrypt (message key : List Nat) : Except CryptoError (List Nat) :=
  if key.length ≠ 16 then .error .invalidKeyLength
  else if message.length % 16 ≠ 0 then .error .badBlockLength
  else
    let decrypted := AES128.cbcDecrypt key IV message
    if decrypted.length > 11 then
      let startMark := readU16BE decrypted 0
      if startMark = 0xFE00 ∨ startMark = 0xFE01 then
        let dataLen := readU16BE decrypted 4
        let cmdLen := dataLen + 11
        if cmdLen ≤ decrypted.length then .ok (decrypted.take cmdLen)
        else .ok decrypted
      else .ok decrypted
    else .ok decrypted

/-- The spec's description of `decrypt`'s post-processing, for comparison
with the implementation: when the decrypted buffer starts with a start-mark
word and `11 + dataLen` (read at offset 4) fits, truncate to it; otherwise
return the buffer unmodified. -/
def truncateByHeader (p : List Nat) : List Nat :=
  if (readU16BE p 0 = 0xFE00 ∨ readU16BE p 0 = 0xFE01) ∧
      11 + readU16BE p 4 ≤ p.length then
    p.take (11 + readU16BE p 4)
  else p

/-- Hex digit value of a character, as Node's hex decoder accepts it
(`0-9`, `a-f`, `A-F`). -/
def hexVal (c : Char) : Option Nat :=
  if '0' ≤ c ∧ c ≤ '9' then some (c.toNat - 48)
  else if 'a' ≤ c ∧ c ≤ 'f' then some (c.toNat - 87)
  else if 'A' ≤ c ∧ c ≤ 'F' then some (c.toNat - 55)
  else none

/-- Node's `Buffer.from(string, 'hex')` semantics: decode complete two-digit
pairs from the left and stop silently at the first invalid pair (or odd
trailing digit) — no error is ever raised. -/
def hexDecode : List Char → List Nat
  | c1 :: c2 :: rest =>
    match hexVal c1, hexVal c2 with
    | some h, some l => (16 * h + l) :: hexDecode rest
    | _, _ => []
  | _ => []

/-- Embedding of `parseMacAddress(macString)`: strip every `':'` and `'-'`
(`replace(/[:-]/g, '')`), throw `'Invalid MAC address format'` unless exactly
12 characters remain, then decode with `Buffer.from(hex, 'hex')`. -/
def parseMacAddress (macString : List Char) : Except CryptoError (List Nat) :=
  let hex := macString.filter (fun c => ¬(c = ':' ∨ c = '-'))
  if hex.length ≠ 12 then .error .formatError
  else .ok (hexDecode hex)

end Smartika

namespace Smartika

/-! Connection layer (`SmartikaHubConnection.js`).  The class is
single-threaded and event-driven; its mutable fields relevant to the command
pipeline are embedded as an explicit state record, and each handler
(`sendCommand`, the command-timeout callback, the socket `data` handler) as a
state-transition function returning the new state together with its observable
outcome.  Entropy for padding and fresh timer handles are passed in as
arguments; promise resolution/rejection is the returned outcome. -/

/-- The mutable fields of `SmartikaHubConnection` that the command pipeline
reads and writes: `connected`, `encryptionKey`, `pendingCommand` (embedded as
the armed timer's handle) and `responseBuffer`. -/
structure ConnState where
  connected : Bool
  encryptionKey : Option (List Nat)
  pendingCommand : Option Nat
  responseBuffer : List Nat
  deriving Repr, DecidableEq

/-- Observable outcome of a `sendCommand` call: immediate rejection with
`'Not connected to hub'`, immediate rejection with
`'Another command is pending'`, or acceptance with the encrypted bytes
written to the socket. -/
inductive SendOutcome where
  | notConnected
  | commandBusy
  | sent (wire : List Nat)
  deriving Repr, DecidableEq

/-- Embedding of `sendCommand(request)` up to its `socket.write`: the
not-connected check (`!this.connected || !this.encryptionKey`) runs first,
then the busy check (`this.pendingCommand`); only then is the request
encrypted, a timeout timer armed, the pending slot filled and the response
buffer reset. -/
def sendCommand (st : ConnState) (request padding : List Nat) (timer : Nat) :
    ConnState × SendOutcome :=
  if st.connected = false ∨ st.encryptionKey = none then (st, .notConnected)
  else if st.pendingCommand ≠ none then (st, .commandBusy)
  else
    ({ st with pendingCommand := some timer, responseBuffer := [] },
      .sent (encrypt request (st.encryptionKey.getD []) padding))

/-- Observable outcome of a socket `data` event or timer expiry. -/
inductive DataOutcome where
  | noOutcome
  | resolved (decrypted : List Nat)
  | rejected (e : CryptoError)
  | rejectedTimeout
  deriving Repr, DecidableEq

/-- Embedding of the `sendCommand` timeout callback: clear the pending slot,
reset the receive buffer and reject the command with `'Command timeout'`. -/
def onCommandTimeout (st : ConnState) : ConnState × DataOutcome :=
  ({ st with pendingCommand := none, responseBuffer := [] }, .rejectedTimeout)

/-- Embedding of `handleData(data)`: append to `responseBuffer`; if a command
is pending and the buffer is non-empty, disarm the timer, decrypt the whole
buffer, clear the pending slot and buffer, and resolve (or reject, if
decryption throws); otherwise just keep the accumulated buffer. -/
def handleData (st : ConnState) (data : List Nat) : ConnState × DataOutcome :=
  let buf := st.responseBuffer ++ data
  match st.pendingCommand with
  | some _ =>
    if 0 < buf.length then
      match decrypt buf (st.encryptionKey.getD []) with
      | .ok d => ({ st with pendingCommand := none, responseBuffer := [] }, .resolved d)
      | .error e => ({ st with pendingCommand := none, responseBuffer := [] }, .rejected e)
    else ({ st with responseBuffer := buf }, .noOutcome)
  | none => ({ st with responseBuffer := buf }, .noOutcome)

/-- Embedding of `getGroupedDeviceIds()`: the two awaited sub-operations
(`listGroups`, `readGroup`) are passed in as their fallible results; the
function aggregates member ids into a set, skipping unreadable groups, and
returns the empty set if listing fails. -/
def getGroupedDeviceIds {ε : Type} (listGroups : Except ε (List Nat))
    (readGroup : Nat → Except ε GroupReadResult) : Finset Nat :=
  match listGroups with
  | .error _ => ∅
  | .ok groupIds =>
    groupIds.foldl (fun acc gid =>
      match readGroup gid with
      | .ok res => acc ∪ res.deviceIds.toFinset
      | .error _ => acc) ∅

end Smartika

namespace Smartika

/-! Helper lemmas about buffer reads. -/

end Smartika

/-- FIPS-197 appendix C.1 vector, validating the AES embedding itself:
AES-128 of `00112233445566778899AABBCCDDEEFF` under key
`000102030405060708090A0B0C0D0E0F`. -/
theorem aes128_fips197_encrypt_vector :
    AES128.encryptBlock
      [0x00, 0x01, 0x02, 0x03, 0x04, 0x05, 0x06, 0x07,
       0x08, 0x09, 0x0A, 0x0B, 0x0C, 0x0D, 0x0E, 0x0F]
      [0x00, 0x11, 0x22, 0x33, 0x44, 0x55, 0x66, 0x77,
       0x88, 0x99, 0xAA, 0xBB, 0xCC, 0xDD, 0xEE, 0xFF] =
      [0x69, 0xC4, 0xE0, 0xD8, 0x6A, 0x7B, 0x04, 0x30,
       0xD8, 0xCD, 0xB7, 0x80, 0x70, 0xB4, 0xC5, 0x5A] := rfl

namespace Smartika


theorem getD_append_add (l m : List Nat) (i : Nat) :
    (l ++ m).getD (l.length + i) 0 = m.getD i 0 := by
  rw [List.getD_append_right _ _ _ _ (Nat.le_add_right _ _), Nat.add_sub_cancel_left]

theorem readU16BE_append (l m : List Nat) (i : Nat) :
    readU16BE (l ++ m) (l.length + i) = readU16BE m i := by
  unfold readU16BE
  rw [getD_append_add, show l.length + i + 1 = l.length + (i + 1) by omega, getD_append_add]

/-- Success characterization: `parsePacket p = .ok r` exactly when the five
frame checks pass and `r` is the decoded record. -/
theorem parsePacket_ok_iff (p : List Nat) (r : Packet) :
    parsePacket p = .ok r ↔
      (11 ≤ p.length ∧
       (readU16BE p 0 = START_MARK_REQUEST ∨ readU16BE p 0 = START_MARK_RESPONSE) ∧
       11 + readU16BE p 4 ≤ p.length ∧
       readU16BE p (9 + readU16BE p 4) = END_MARK ∧
       p.getD (8 + readU16BE p 4) 0 =
         computeChecksum (subarray p 2 (8 + readU16BE p 4)) ∧
       r = ⟨readU16BE p 2, readU16BE p 4, readU16BE p 6,
            subarray p 8 (8 + readU16BE p 4),
            decide (readU16BE p 0 = START_MARK_REQUEST)⟩) := by
  unfold parsePacket
  by_cases h1 : p.length < 11
  · simp only [if_pos h1]
    constructor
    · intro h; cases h
    · intro h; omega
  · simp only [if_neg h1]
    by_cases h2 : readU16BE p 0 = START_MARK_REQUEST ∨ readU16BE p 0 = START_MARK_RESPONSE
    · rw [if_neg (not_not_intro h2)]
      by_cases h3 : p.length < 8 + readU16BE p 4 + 3
      · simp only [if_pos h3]
        constructor
        · intro h; cases h
        · intro h; omega
      · simp only [if_neg h3]
        rw [show 9 + readU16BE p 4 = 8 + readU16BE p 4 + 1 by omega]
        by_cases h4 : readU16BE p (8 + readU16BE p 4 + 1) = END_MARK
        · rw [if_neg (not_not_intro h4)]
          by_cases h5 : p.getD (8 + readU16BE p 4) 0 =
              computeChecksum (subarray p 2 (8 + readU16BE p 4))
          · rw [if_neg (not_not_intro h5)]
            constructor
            · intro h
              cases h
              refine ⟨by omega, h2, by omega, h4, h5, rfl⟩
            · intro ⟨_, _, _, _, _, hr⟩
              rw [hr]
          · rw [if_pos h5]
            constructor
            · intro h; cases h
            · intro ⟨_, _, _, _, hc, _⟩; exact absurd hc h5
        · rw [if_pos h4]
          constructor
          · intro h; cases h
          · intro ⟨_, _, _, he, _, _⟩; exact absurd he h4
    · rw [if_pos h2]
      constructor
      · intro h; cases h
      · intro ⟨_, hs, _⟩; exact absurd hs h2

/-- Parsing a well-formed frame laid out as `createPacket` lays it out
recovers every field.  `sm` is the start mark actually written. -/
theorem parse_encode_aux (sm c l : Nat) (data : List Nat)
    (hsm : sm = 0xFE00 ∨ sm = 0xFE01)
    (hc : c < 65536) (hl : l < 65536) (hn : data.length < 65536) :
    parsePacket (be16 sm ++ (be16 c ++ be16 data.length ++ be16 l ++ data) ++
        [computeChecksum (be16 c ++ be16 data.length ++ be16 l ++ data)] ++
        be16 END_MARK) =
      .ok ⟨c, data.length, l, data,
        decide (sm = START_MARK_REQUEST)⟩ := by
  have hsm' : sm < 65536 := by rcases hsm with h | h <;> omega
  set F : List Nat :=
    [sm / 256 % 256, sm % 256, c / 256 % 256, c % 256,
     data.length / 256 % 256, data.length % 256, l / 256 % 256, l % 256] with hF
  set T : List Nat :=
    [computeChecksum (be16 c ++ be16 data.length ++ be16 l ++ data), 0, 255] with hT
  have hpk : be16 sm ++ (be16 c ++ be16 data.length ++ be16 l ++ data) ++
      [computeChecksum (be16 c ++ be16 data.length ++ be16 l ++ data)] ++
      be16 END_MARK = F ++ (data ++ T) := by
    simp [hF, hT, be16, END_MARK, List.append_assoc]
  rw [hpk]
  have hlen : (F ++ (data ++ T)).length = 11 + data.length := by
    simp [hF, hT]; omega
  have h0 : readU16BE (F ++ (data ++ T)) 0 = 256 * (sm / 256 % 256) + sm % 256 := rfl
  have h0' : readU16BE (F ++ (data ++ T)) 0 = sm := by omega
  have h2 : readU16BE (F ++ (data ++ T)) 2 = 256 * (c / 256 % 256) + c % 256 := rfl
  have h2' : readU16BE (F ++ (data ++ T)) 2 = c := by omega
  have h4 : readU16BE (F ++ (data ++ T)) 4 =
      256 * (data.length / 256 % 256) + data.length % 256 := rfl
  have h4' : readU16BE (F ++ (data ++ T)) 4 = data.length := by omega
  have h6 : readU16BE (F ++ (data ++ T)) 6 = 256 * (l / 256 % 256) + l % 256 := rfl
  have h6' : readU16BE (F ++ (data ++ T)) 6 = l := by omega
  have hfcsByte : (F ++ (data ++ T)).getD (8 + data.length) 0 =
      computeChecksum (be16 c ++ be16 data.length ++ be16 l ++ data) := by
    show (F ++ (data ++ T)).getD (F.length + data.length) 0 = _
    rw [getD_append_add]
    show (data ++ T).getD (data.length + 0) 0 = _
    rw [getD_append_add]
    rfl
  have hend : readU16BE (F ++ (data ++ T)) (9 + data.length) = END_MARK := by
    rw [show 9 + data.length = F.length + (data.length + 1) by simp [hF]; omega]
    rw [readU16BE_append, readU16BE_append data T 1]
    rfl
  have hdata : subarray (F ++ (data ++ T)) 8 (8 + data.length) = data := by
    unfold subarray
    show ((F ++ (data ++ T)).drop F.length).take (8 + data.length - 8) = data
    rw [List.drop_append_eq_append_drop]
    simp [hF, hT]
  have hsum : subarray (F ++ (data ++ T)) 2 (8 + data.length) =
      be16 c ++ be16 data.length ++ be16 l ++ data := by
    unfold subarray
    rw [List.drop_append_eq_append_drop]
    rw [show F.drop 2 ++ (data ++ T).drop (2 - F.length) =
        ([c / 256 % 256, c % 256, data.length / 256 % 256, data.length % 256,
          l / 256 % 256, l % 256] ++ data) ++ T by
      simp [hF, hT, List.append_assoc]]
    rw [List.take_left' (by simp; omega)]
    rfl
  refine (parsePacket_ok_iff _ _).mpr
    ⟨by rw [hlen]; omega, by rw [h0']; exact hsm, by rw [h4', hlen],
     by rw [h4']; exact hend, by rw [h4', hfcsByte, hsum],
     by rw [h2', h4', h6', h0', hdata]⟩

/-- C1: for every `cmdId`, `listLen` and payload length representable as
unsigned 16-bit integers, every byte payload and every `isRequest` flag,
`parsePacket (createPacket cmdId data listLen isRequest)` succeeds and
returns a packet whose `cmdId`, `dataLen = data.length`, `listLen`, `data`
and `isRequest` equal the encoder's arguments (round-trip law). -/
theorem createPacket_parsePacket_roundtrip (cmdId listLen : Nat)
    (data : List Nat) (isRequest : Bool)
    (hc : cmdId < 65536) (hl : listLen < 65536) (hd : data.length < 65536)
    (_hbytes : ∀ b ∈ data, b < 256) :
    parsePacket (createPacket cmdId data listLen isRequest) =
      .ok ⟨cmdId, data.length, listLen, data, isRequest⟩ := by
  cases isRequest
  · exact parse_encode_aux 0xFE01 cmdId listLen data (Or.inr rfl) hc hl hd
  · exact parse_encode_aux 0xFE00 cmdId listLen data (Or.inl rfl) hc hl hd

/-- Witness for the round-trip law at a concrete frame. -/
theorem createPacket_parsePacket_roundtrip_witness :
    parsePacket (createPacket 0x0004 [0x80, 0x28, 0xCF] 1 true) =
      .ok ⟨0x0004, 3, 1, [0x80, 0x28, 0xCF], true⟩ :=
  createPacket_parsePacket_roundtrip 0x0004 1 [0x80, 0x28, 0xCF] true
    (by decide) (by decide) (by decide) (by decide)

/-- C2: `parsePacket` fails with `tooShort` exactly on buffers shorter than
11 bytes; otherwise with `badStartMark` exactly when the first big-endian
word is neither `0xFE00` nor `0xFE01`; otherwise with `incomplete` exactly
when the buffer is shorter than `11 + dataLen` (`dataLen` read at offset 4);
otherwise with `badEndMark` exactly when the word at offset `9 + dataLen` is
not `0x00FF`; otherwise with `checksumMismatch` exactly when the checksum
recomputed over bytes `[2, 8 + dataLen)` differs from the byte at offset
`8 + dataLen`; and a packet is returned exactly when all five checks pass. -/
theorem parsePacket_error_taxonomy (p : List Nat) :
    (parsePacket p = .error .tooShort ↔ p.length < 11) ∧
    (parsePacket p = .error .badStartMark ↔
      (11 ≤ p.length ∧
       ¬(readU16BE p 0 = 0xFE00 ∨ readU16BE p 0 = 0xFE01))) ∧
    (parsePacket p = .error .incomplete ↔
      (11 ≤ p.length ∧
       (readU16BE p 0 = 0xFE00 ∨ readU16BE p 0 = 0xFE01) ∧
       p.length < 11 + readU16BE p 4)) ∧
    (parsePacket p = .error .badEndMark ↔
      (11 ≤ p.length ∧
       (readU16BE p 0 = 0xFE00 ∨ readU16BE p 0 = 0xFE01) ∧
       11 + readU16BE p 4 ≤ p.length ∧
       readU16BE p (9 + readU16BE p 4) ≠ 0x00FF)) ∧
    (parsePacket p = .error .checksumMismatch ↔
      (11 ≤ p.length ∧
       (readU16BE p 0 = 0xFE00 ∨ readU16BE p 0 = 0xFE01) ∧
       11 + readU16BE p 4 ≤ p.length ∧
       readU16BE p (9 + readU16BE p 4) = 0x00FF ∧
       p.getD (8 + readU16BE p 4) 0 ≠
         computeChecksum (subarray p 2 (8 + readU16BE p 4)))) ∧
    ((∃ r, parsePacket p = .ok r) ↔
      (11 ≤ p.length ∧
       (readU16BE p 0 = 0xFE00 ∨ readU16BE p 0 = 0xFE01) ∧
       11 + readU16BE p 4 ≤ p.length ∧
       readU16BE p (9 + readU16BE p 4) = 0x00FF ∧
       p.getD (8 + readU16BE p 4) 0 =
         computeChecksum (subarray p 2 (8 + readU16BE p 4)))) := by
  unfold parsePacket
  rw [show 9 + readU16BE p 4 = 8 + readU16BE p 4 + 1 by omega]
  by_cases h1 : p.length < 11
  · simp only [if_pos h1]
    have h1' : ¬(11 ≤ p.length) := by omega
    exact ⟨iff_of_true trivial h1,
      iff_of_false (by simp) (fun hr => absurd hr.1 h1'),
      iff_of_false (by simp) (fun hr => absurd hr.1 h1'),
      iff_of_false (by simp) (fun hr => absurd hr.1 h1'),
      iff_of_false (by simp) (fun hr => absurd hr.1 h1'),
      iff_of_false (by simp) (fun hr => absurd hr.1 h1')⟩
  · simp only [if_neg h1]
    have h1' : 11 ≤ p.length := by omega
    by_cases h2 : readU16BE p 0 = START_MARK_REQUEST ∨ readU16BE p 0 = START_MARK_RESPONSE
    · rw [if_neg (not_not_intro h2)]
      by_cases h3 : p.length < 8 + readU16BE p 4 + 3
      · simp only [if_pos h3]
        have h3' : ¬(11 + readU16BE p 4 ≤ p.length) := by omega
        exact ⟨iff_of_false (by simp) h1,
          iff_of_false (by simp) (fun hr => hr.2 h2),
          iff_of_true trivial ⟨h1', h2, by omega⟩,
          iff_of_false (by simp) (fun hr => absurd hr.2.2.1 h3'),
          iff_of_false (by simp) (fun hr => absurd hr.2.2.1 h3'),
          iff_of_false (by simp) (fun hr => absurd hr.2.2.1 h3')⟩
      · simp only [if_neg h3]
        have h3' : 11 + readU16BE p 4 ≤ p.length := by omega
        by_cases h4 : readU16BE p (8 + readU16BE p 4 + 1) = END_MARK
        · rw [if_neg (not_not_intro h4)]
          by_cases h5 : p.getD (8 + readU16BE p 4) 0 =
              computeChecksum (subarray p 2 (8 + readU16BE p 4))
          · rw [if_neg (not_not_intro h5)]
            exact ⟨iff_of_false (by simp) h1,
              iff_of_false (by simp) (fun hr => hr.2 h2),
              iff_of_false (by simp) (fun hr => absurd hr.2.2 (by omega)),
              iff_of_false (by simp) (fun hr => absurd h4 hr.2.2.2),
              iff_of_false (by simp) (fun hr => absurd h5 hr.2.2.2.2),
              iff_of_true ⟨_, rfl⟩ ⟨h1', h2, h3', h4, h5⟩⟩
          · rw [if_pos h5]
            exact ⟨iff_of_false (by simp) h1,
              iff_of_false (by simp) (fun hr => hr.2 h2),
              iff_of_false (by simp) (fun hr => absurd hr.2.2 (by omega)),
              iff_of_false (by simp) (fun hr => absurd h4 hr.2.2.2),
              iff_of_true rfl ⟨h1', h2, h3', h4, h5⟩,
              iff_of_false (by simp) (fun hr => absurd hr.2.2.2.2 h5)⟩
        · rw [if_pos h4]
          exact ⟨iff_of_false (by simp) h1,
            iff_of_false (by simp) (fun hr => hr.2 h2),
            iff_of_false (by simp) (fun hr => absurd hr.2.2 (by omega)),
            iff_of_true rfl ⟨h1', h2, h3', h4⟩,
            iff_of_false (by simp) (fun hr => absurd hr.2.2.2.1 h4),
            iff_of_false (by simp) (fun hr => absurd hr.2.2.2.1 h4)⟩
    · rw [if_pos h2]
      exact ⟨iff_of_false (by simp) h1,
        iff_of_true rfl ⟨h1', h2⟩,
        iff_of_false (by simp) (fun hr => absurd hr.2.1 h2),
        iff_of_false (by simp) (fun hr => absurd hr.2.1 h2),
        iff_of_false (by simp) (fun hr => absurd hr.2.1 h2),
        iff_of_false (by simp) (fun hr => absurd hr.2.1 h2)⟩

/-- C10: `parsePacket` never looks past offset `11 + dataLen`, so a buffer
that parses successfully still parses to the same packet after arbitrary
trailing bytes are appended — exact total length is not enforced on decode. -/
theorem parsePacket_ignores_trailing_bytes (p extra : List Nat) (r : Packet)
    (h : parsePacket p = .ok r) :
    parsePacket (p ++ extra) = .ok r := by
  obtain ⟨hlen, hsm, hfit, hend, hsum, hr⟩ := (parsePacket_ok_iff p r).mp h
  have e16 : ∀ i, i + 2 ≤ p.length → readU16BE (p ++ extra) i = readU16BE p i := by
    intro i hi
    unfold readU16BE
    rw [List.getD_append _ _ _ _ (by omega), List.getD_append _ _ _ _ (by omega)]
  have egetD : ∀ i, i < p.length → (p ++ extra).getD i 0 = p.getD i 0 :=
    fun i hi => List.getD_append _ _ _ _ hi
  have esub : ∀ a b, b ≤ p.length → subarray (p ++ extra) a b = subarray p a b := by
    intro a b hb
    unfold subarray
    rw [List.drop_append_eq_append_drop]
    by_cases ha : a ≤ p.length
    · rw [Nat.sub_eq_zero_of_le ha, List.drop_zero,
        List.take_append_of_le_length (by simp [List.length_drop]; omega)]
    · rw [show b - a = 0 by omega]
      simp
  have e4 : readU16BE (p ++ extra) 4 = readU16BE p 4 := e16 4 (by omega)
  refine (parsePacket_ok_iff _ _).mpr ⟨by simp; omega, ?_, ?_, ?_, ?_, ?_⟩
  · rw [e16 0 (by omega)]; exact hsm
  · rw [e4]; simp; omega
  · rw [e4, e16 (9 + readU16BE p 4) (by omega)]; exact hend
  · rw [e4, egetD (8 + readU16BE p 4) (by omega),
      esub 2 (8 + readU16BE p 4) (by omega)]
    exact hsum
  · rw [e4, e16 2 (by omega), e16 6 (by omega), e16 0 (by omega),
      esub 8 (8 + readU16BE p 4) (by omega)]
    exact hr

/-- Witness: a valid ping frame still parses after five trailing bytes of
CBC padding are appended. -/
theorem parsePacket_ignores_trailing_bytes_witness :
    parsePacket (createPacket 0x0101 [] 0 true ++ [5, 5, 5, 5, 5]) =
      .ok ⟨0x0101, 0, 0, [], true⟩ :=
  parsePacket_ignores_trailing_bytes (createPacket 0x0101 [] 0 true)
    [5, 5, 5, 5, 5] ⟨0x0101, 0, 0, [], true⟩ rfl

/-- The guarded discovery loop always succeeds on a whole number of
14-byte records and yields `min fuel (k - i)` records. -/
theorem discoveryLoop_ok (data : List Nat) (k : Nat) (hk : data.length = 14 * k) :
    ∀ fuel i, ∃ l, discoveryLoop data i fuel = .ok l ∧ l.length = min fuel (k - i) := by
  intro fuel
  induction fuel with
  | zero => intro i; exact ⟨[], rfl, by simp⟩
  | succ n ih =>
    intro i
    by_cases hi : i * 14 < data.length
    · have hik : i < k := by omega
      obtain ⟨l, hl, hlen⟩ := ih (i + 1)
      have h1 : readU16BEx data (i * 14) = .ok (readU16BE data (i * 14)) := by
        rw [readU16BEx, if_pos (by omega)]
      have h2 : readU32BEx data (i * 14 + 2) = .ok (readU32BE data (i * 14 + 2)) := by
        rw [readU32BEx, if_pos (by omega)]
      refine ⟨⟨readU16BE data (i * 14), readU32BE data (i * 14 + 2),
        subarray data (i * 14 + 6) (i * 14 + 14)⟩ :: l, ?_, ?_⟩
      · simp only [discoveryLoop, if_pos hi, h1, h2, hl]; rfl
      · simp [hlen]; omega
    · exact ⟨[], by simp [discoveryLoop, hi], by simp; omega⟩

/-- The unguarded two-byte element loop succeeds (with exactly `fuel`
elements) whenever its last read stays inside the payload. -/
theorem readU16Loop_ok (data : List Nat) (start : Nat) :
    ∀ fuel i, start + 2 * (i + fuel) ≤ data.length ∨ fuel = 0 →
      ∃ l, readU16Loop data start i fuel = .ok l ∧ l.length = fuel := by
  intro fuel
  induction fuel with
  | zero => intro i _; exact ⟨[], rfl, rfl⟩
  | succ n ih =>
    intro i h
    have hb : start + 2 * (i + (n + 1)) ≤ data.length := by omega
    obtain ⟨l, hl, hlen⟩ := ih (i + 1) (by omega)
    have h1 : readU16BEx data (start + i * 2) = .ok (readU16BE data (start + i * 2)) := by
      rw [readU16BEx, if_pos (by omega)]
    exact ⟨readU16BE data (start + i * 2) :: l,
      by simp only [readU16Loop, h1, hl]; rfl, by simp [hlen]⟩

/-- The unguarded two-byte element loop throws `ERR_OUT_OF_RANGE` as soon as
`fuel` is positive and its last read would leave the payload. -/
theorem readU16Loop_err (data : List Nat) (start : Nat) :
    ∀ fuel i, 0 < fuel → data.length < start + 2 * (i + fuel) →
      readU16Loop data start i fuel = .error .outOfRange := by
  intro fuel
  induction fuel with
  | zero => intro i h _; omega
  | succ n ih =>
    intro i _ h
    by_cases hc : start + i * 2 + 2 ≤ data.length
    · have hn : 0 < n := by omega
      have h1 : readU16BEx data (start + i * 2) = .ok (readU16BE data (start + i * 2)) := by
        rw [readU16BEx, if_pos hc]
      simp only [readU16Loop, h1, ih (i + 1) hn (by omega)]; rfl
    · have h1 : readU16BEx data (start + i * 2) = .error .outOfRange := by
        rw [readU16BEx, if_neg hc]
      simp only [readU16Loop, h1]; rfl

/-- Reduction of an `Except` bind on a success value. -/
theorem except_ok_bind {ε α β : Type} (a : α) (f : α → Except ε β) :
    (Except.ok a >>= f : Except ε β) = f a := rfl

/-- C3 (amended): the device-discovery decoder's loop is cursor-guarded: on
a payload holding a whole number `k` of 14-byte records it never fails and
returns `min listLen k` records, stopping early without error when the
payload runs out.  The db-list and group-read decoders, by contrast, iterate
exactly `listLen` times with no cursor guard: db-list succeeds exactly when
the payload holds `listLen` two-byte elements (`2 * listLen ≤ dataLen`), and
group-read (which also always reads a two-byte group id at offset 0)
succeeds exactly when `2 + 2 * listLen ≤ dataLen`; otherwise they throw
`ERR_OUT_OF_RANGE`. -/
theorem listDecode_cursor_behavior :
    (∀ (pkt : List Nat) (r : Packet) (k : Nat),
      parsePacket pkt = .ok r → r.cmdId = 0x0001 → r.data.length = 14 * k →
      ∃ l, parseDeviceDiscoveryResponse pkt = .ok l ∧ l.length = min r.listLen k) ∧
    (∀ (pkt : List Nat) (r : Packet),
      parsePacket pkt = .ok r → r.cmdId = 0x0200 →
      ((∃ l, parseDbListDeviceResponse pkt = .ok l) ↔
        2 * r.listLen ≤ r.data.length)) ∧
    (∀ (pkt : List Nat) (r : Packet),
      parsePacket pkt = .ok r → r.cmdId = 0x0403 →
      ((∃ g, parseGroupReadResponse pkt = .ok g) ↔
        2 + 2 * r.listLen ≤ r.data.length)) := by
  refine ⟨?_, ?_, ?_⟩
  · intro pkt r k hp hc hk
    obtain ⟨l, hl, hlen⟩ := discoveryLoop_ok r.data k hk r.listLen 0
    have heq : parseDeviceDiscoveryResponse pkt = discoveryLoop r.data 0 r.listLen := by
      unfold parseDeviceDiscoveryResponse
      rw [hp]
      rw [show ((Except.ok r).mapError DecodeError.parse) = Except.ok r from rfl, except_ok_bind]
      simp [hc]
    exact ⟨l, by rw [heq, hl], by simpa using hlen⟩
  · intro pkt r hp hc
    have heq : parseDbListDeviceResponse pkt = readU16Loop r.data 0 0 r.listLen := by
      unfold parseDbListDeviceResponse
      rw [hp]
      rw [show ((Except.ok r).mapError DecodeError.parse) = Except.ok r from rfl, except_ok_bind]
      simp [hc]
    rw [heq]
    constructor
    · rintro ⟨l, hl⟩
      by_contra hlt
      rw [readU16Loop_err r.data 0 r.listLen 0 (by omega) (by omega)] at hl
      cases hl
    · intro h
      obtain ⟨l, hl, _⟩ := readU16Loop_ok r.data 0 r.listLen 0 (Or.inl (by omega))
      exact ⟨l, hl⟩
  · intro pkt r hp hc
    have heq : parseGroupReadResponse pkt = (do
        let groupId ← readU16BEx r.data 0
        let deviceIds ← readU16Loop r.data 2 0 r.listLen
        pure ⟨groupId, decide (groupId ≠ 0xFFFF), deviceIds⟩) := by
      unfold parseGroupReadResponse
      rw [hp]
      rw [show ((Except.ok r).mapError DecodeError.parse) = Except.ok r from rfl, except_ok_bind]
      simp [hc]
    rw [heq]
    constructor
    · rintro ⟨g, hg⟩
      by_contra hlt
      by_cases h2 : 2 ≤ r.data.length
      · rw [show readU16BEx r.data 0 = .ok (readU16BE r.data 0) from by
            rw [readU16BEx, if_pos (by omega)],
          readU16Loop_err r.data 2 r.listLen 0 (by omega) (by omega)] at hg
        cases hg
      · rw [show readU16BEx r.data 0 = .error .outOfRange from by
            rw [readU16BEx, if_neg (by omega)]] at hg
        cases hg
    · intro h
      obtain ⟨l, hl, _⟩ := readU16Loop_ok r.data 2 r.listLen 0 (Or.inl (by omega))
      refine ⟨⟨readU16BE r.data 0, decide (readU16BE r.data 0 ≠ 0xFFFF), l⟩, ?_⟩
      rw [show readU16BEx r.data 0 = .ok (readU16BE r.data 0) from by
          rw [readU16BEx, if_pos (by omega)], hl]
      rfl

/-- Counterexample to C3 as stated: a validly framed db-list response with
`listLen = 1` and an empty payload parses fine at the frame level, but
`parseDbListDeviceResponse` throws `ERR_OUT_OF_RANGE` instead of stopping
early — its loop has no cursor guard. -/
theorem listDecode_overrun_counterexample :
    parsePacket (createPacket 0x0200 [] 1 false) =
      .ok ⟨0x0200, 0, 1, [], false⟩ ∧
    parseDbListDeviceResponse (createPacket 0x0200 [] 1 false) =
      .error .outOfRange :=
  ⟨rfl, rfl⟩

/-- Witness for the amended list-decoder behavior at concrete frames. -/
theorem listDecode_cursor_behavior_witness :
    (∃ l, parseDeviceDiscoveryResponse
        (createPacket 0x0001 (List.replicate 14 0) 5 false) = .ok l ∧
      l.length = min 5 1) ∧
    ((∃ l, parseDbListDeviceResponse
        (createPacket 0x0200 [1, 2, 3, 4, 5, 6] 3 false) = .ok l) ↔
      2 * 3 ≤ 6) ∧
    ((∃ g, parseGroupReadResponse
        (createPacket 0x0403 [0, 9, 0, 5] 1 false) = .ok g) ↔
      2 + 2 * 1 ≤ 4) :=
  ⟨listDecode_cursor_behavior.1 _ ⟨0x0001, 14, 5, List.replicate 14 0, false⟩ 1
      rfl rfl rfl,
   listDecode_cursor_behavior.2.1 _ ⟨0x0200, 6, 3, [1, 2, 3, 4, 5, 6], false⟩
      rfl rfl,
   listDecode_cursor_behavior.2.2 _ ⟨0x0403, 4, 1, [0, 9, 0, 5], false⟩
      rfl rfl⟩

/-- C4: evaluation of `generateKey` at the repository's own documented test
identifier `00:12:4B:32:89:BB`.  The code's seeding (`baseKey[9] = mac[0]`)
yields `2159E82A784EB15A4E1C25E11C687826`, which is **not** the key
`A7E58B22F0BE06AC242439CB9441838E` that the repository's crypto test (and
`hub_security.md`, per its comments) requires; the length check itself
behaves as documented. -/
theorem generateKey_contradicts_fixed_vector :
    generateKey [0x01, 0x02, 0x03] = .error .invalidInput ∧
    generateKey [0x00, 0x12, 0x4B, 0x32, 0x89, 0xBB] =
      .ok [0x21, 0x59, 0xE8, 0x2A, 0x78, 0x4E, 0xB1, 0x5A,
           0x4E, 0x1C, 0x25, 0xE1, 0x1C, 0x68, 0x78, 0x26] ∧
    ([0x21, 0x59, 0xE8, 0x2A, 0x78, 0x4E, 0xB1, 0x5A,
      0x4E, 0x1C, 0x25, 0xE1, 0x1C, 0x68, 0x78, 0x26] : List Nat) ≠
      [0xA7, 0xE5, 0x8B, 0x22, 0xF0, 0xBE, 0x06, 0xAC,
       0x24, 0x24, 0x39, 0xCB, 0x94, 0x41, 0x83, 0x8E] :=
  ⟨rfl, rfl, by decide⟩

/-- C5: on every well-formed CBC input (16-byte key, block-aligned
ciphertext) `decrypt` returns — never an error — exactly the CBC decryption
post-processed by the spec's header truncation rule; and the repository's
decrypt fixed vector holds: `65A8EB378C0D1AE04A771B574867BDFE` under key
`A7E58B22F0BE06AC242439CB9441838E` decrypts, truncated, to the 11-byte
frame `FE000106000000010600FF`. -/
theorem decrypt_truncates_by_header :
    (∀ (message key : List Nat), key.length = 16 → message.length % 16 = 0 →
      decrypt message key =
        .ok (truncateByHeader (AES128.cbcDecrypt key IV message))) ∧
    decrypt [0x65, 0xA8, 0xEB, 0x37, 0x8C, 0x0D, 0x1A, 0xE0,
             0x4A, 0x77, 0x1B, 0x57, 0x48, 0x67, 0xBD, 0xFE]
      [0xA7, 0xE5, 0x8B, 0x22, 0xF0, 0xBE, 0x06, 0xAC,
       0x24, 0x24, 0x39, 0xCB, 0x94, 0x41, 0x83, 0x8E] =
      .ok [0xFE, 0x00, 0x01, 0x06, 0x00, 0x00, 0x00, 0x01, 0x06, 0x00, 0xFF] := by
  constructor
  · intro message key hk hm
    unfold decrypt
    rw [if_neg (by omega), if_neg (by omega)]
    set p := AES128.cbcDecrypt key IV message with hp
    rw [truncateByHeader]
    by_cases hc : (readU16BE p 0 = 0xFE00 ∨ readU16BE p 0 = 0xFE01) ∧
        11 + readU16BE p 4 ≤ p.length
    · rw [if_pos hc]
      by_cases hl : p.length > 11
      · rw [if_pos hl, if_pos hc.1, if_pos (by omega),
          show readU16BE p 4 + 11 = 11 + readU16BE p 4 by omega]
      · rw [if_neg hl, List.take_of_length_le (by omega)]
    · by_cases hl : p.length > 11
      · rw [if_pos hl, if_neg hc]
        by_cases hmark : readU16BE p 0 = 0xFE00 ∨ readU16BE p 0 = 0xFE01
        · rw [if_pos hmark, if_neg (by
            intro hfit
            exact hc ⟨hmark, by omega⟩)]
        · rw [if_neg hmark]
      · rw [if_neg hl, if_neg hc]
  · rfl

/-- Witness: the truncation law applied at the repository's fixed vector. -/
theorem decrypt_truncates_by_header_witness :
    decrypt [0x65, 0xA8, 0xEB, 0x37, 0x8C, 0x0D, 0x1A, 0xE0,
             0x4A, 0x77, 0x1B, 0x57, 0x48, 0x67, 0xBD, 0xFE]
      [0xA7, 0xE5, 0x8B, 0x22, 0xF0, 0xBE, 0x06, 0xAC,
       0x24, 0x24, 0x39, 0xCB, 0x94, 0x41, 0x83, 0x8E] =
      .ok (truncateByHeader (AES128.cbcDecrypt
        [0xA7, 0xE5, 0x8B, 0x22, 0xF0, 0xBE, 0x06, 0xAC,
         0x24, 0x24, 0x39, 0xCB, 0x94, 0x41, 0x83, 0x8E] IV
        [0x65, 0xA8, 0xEB, 0x37, 0x8C, 0x0D, 0x1A, 0xE0,
         0x4A, 0x77, 0x1B, 0x57, 0x48, 0x67, 0xBD, 0xFE])) :=
  decrypt_truncates_by_header.1 _ _ rfl rfl

/-- C6 (amended): in a Ready state (connected, key present) with a command
already pending, `sendCommand` fails immediately with `CommandBusy`, leaving
the whole state — pending command, its timer, receive buffer — unchanged and
writing nothing; in every non-Ready state (not connected or no key), even
one with a command pending, it fails immediately with `NotConnected` (that
check runs first) without touching the socket. -/
theorem sendCommand_guards :
    (∀ (st : ConnState) (request padding : List Nat) (timer : Nat),
      st.connected = true → st.encryptionKey ≠ none → st.pendingCommand ≠ none →
      sendCommand st request padding timer = (st, .commandBusy)) ∧
    (∀ (st : ConnState) (request padding : List Nat) (timer : Nat),
      st.connected = false ∨ st.encryptionKey = none →
      sendCommand st request padding timer = (st, .notConnected)) := by
  constructor
  · intro st request padding timer hc hk hp
    unfold sendCommand
    rw [if_neg (by
      rintro (h | h)
      · rw [hc] at h; cases h
      · exact hk h), if_pos hp]
  · intro st request padding timer h
    unfold sendCommand
    rw [if_pos h]

/-- Counterexample to C6 as stated: in a reachable state where a command is
pending but the connection is down (the socket-close handler clears
`connected` without clearing the pending slot), `sendCommand` fails with
`NotConnected`, not `CommandBusy`. -/
theorem sendCommand_busy_counterexample :
    sendCommand ⟨false, none, some 0, []⟩ [1] [] 1 =
      (⟨false, none, some 0, []⟩, .notConnected) ∧
    SendOutcome.notConnected ≠ SendOutcome.commandBusy :=
  ⟨rfl, by decide⟩

/-- Witness for the `sendCommand` guards at concrete states. -/
theorem sendCommand_guards_witness :
    sendCommand ⟨true, some (List.replicate 16 0), some 7, [9]⟩ [2] [] 3 =
      (⟨true, some (List.replicate 16 0), some 7, [9]⟩, .commandBusy) ∧
    sendCommand ⟨false, none, none, []⟩ [2] [] 3 =
      (⟨false, none, none, []⟩, .notConnected) :=
  ⟨sendCommand_guards.1 _ [2] [] 3 rfl (by decide) (by decide),
   sendCommand_guards.2 _ [2] [] 3 (Or.inl rfl)⟩

/-- C7: when an in-flight command's timer fires, the command is rejected
with `CommandTimeout`, the pending slot is cleared and the buffer reset
(connection and key untouched), so a subsequent `sendCommand` in a Ready
state is accepted; bytes arriving while no command is pending produce no
resolution, rejection or decryption — they merely sit in the buffer, which
every accepted `sendCommand` resets before writing, so they are never
attributed to any command. -/
theorem commandTimeout_clears_pending :
    (∀ (st : ConnState) (t : Nat), st.pendingCommand = some t →
      (onCommandTimeout st).2 = .rejectedTimeout ∧
      (onCommandTimeout st).1.pendingCommand = none ∧
      (onCommandTimeout st).1.responseBuffer = [] ∧
      (onCommandTimeout st).1.connected = st.connected ∧
      (onCommandTimeout st).1.encryptionKey = st.encryptionKey ∧
      (st.connected = true → st.encryptionKey ≠ none →
        ∀ (request padding : List Nat) (timer : Nat), ∃ wire,
          (sendCommand (onCommandTimeout st).1 request padding timer).2 =
            .sent wire)) ∧
    (∀ (st : ConnState) (data : List Nat), st.pendingCommand = none →
      (handleData st data).2 = .noOutcome ∧
      (handleData st data).1 =
        { st with responseBuffer := st.responseBuffer ++ data }) ∧
    (∀ (st : ConnState) (request padding : List Nat) (timer : Nat)
        (st' : ConnState) (wire : List Nat),
      sendCommand st request padding timer = (st', .sent wire) →
      st'.responseBuffer = [] ∧ st'.pendingCommand = some timer) := by
  refine ⟨?_, ?_, ?_⟩
  · intro st t _
    refine ⟨rfl, rfl, rfl, rfl, rfl, ?_⟩
    intro hc hk request padding timer
    refine ⟨encrypt request (st.encryptionKey.getD []) padding, ?_⟩
    unfold sendCommand
    rw [if_neg (by
      rintro (h | h)
      · rw [show (onCommandTimeout st).1.connected = true from hc] at h; cases h
      · exact hk h)]
    rw [if_neg (by simp [onCommandTimeout])]
    rfl
  · intro st data hp
    unfold handleData
    rw [hp]
    exact ⟨rfl, rfl⟩
  · intro st request padding timer st' wire h
    unfold sendCommand at h
    by_cases h1 : st.connected = false ∨ st.encryptionKey = none
    · rw [if_pos h1] at h
      injection h with _ h2
      cases h2
    · rw [if_neg h1] at h
      by_cases h2 : st.pendingCommand ≠ none
      · rw [if_pos h2] at h
        injection h with _ h3
        cases h3
      · rw [if_neg h2] at h
        injection h with h3 _
        rw [← h3]
        exact ⟨rfl, rfl⟩

/-- Witness for the timeout/discard behavior at a concrete state. -/
theorem commandTimeout_clears_pending_witness :
    ((onCommandTimeout ⟨true, some (List.replicate 16 0), some 5, [1, 2]⟩).2 =
        .rejectedTimeout ∧
      (onCommandTimeout ⟨true, some (List.replicate 16 0), some 5, [1, 2]⟩).1.pendingCommand =
        none ∧
      (onCommandTimeout ⟨true, some (List.replicate 16 0), some 5, [1, 2]⟩).1.responseBuffer =
        [] ∧
      (onCommandTimeout ⟨true, some (List.replicate 16 0), some 5, [1, 2]⟩).1.connected =
        true ∧
      (onCommandTimeout ⟨true, some (List.replicate 16 0), some 5, [1, 2]⟩).1.encryptionKey =
        some (List.replicate 16 0) ∧
      (true = true → some (List.replicate 16 0) ≠ none →
        ∀ (request padding : List Nat) (timer : Nat), ∃ wire,
          (sendCommand (onCommandTimeout
            ⟨true, some (List.replicate 16 0), some 5, [1, 2]⟩).1
            request padding timer).2 = .sent wire)) ∧
    ((handleData ⟨true, some (List.replicate 16 0), none, []⟩ [3, 4]).2 =
        .noOutcome ∧
      (handleData ⟨true, some (List.replicate 16 0), none, []⟩ [3, 4]).1 =
        ⟨true, some (List.replicate 16 0), none, [3, 4]⟩) :=
  ⟨commandTimeout_clears_pending.1 ⟨true, some (List.replicate 16 0), some 5, [1, 2]⟩ 5 rfl,
   commandTimeout_clears_pending.2.1 ⟨true, some (List.replicate 16 0), none, []⟩ [3, 4] rfl⟩

/-- Node's hex decoder yields exactly one byte per digit pair when every
character is a valid hex digit. -/
theorem hexDecode_length : ∀ (n : Nat) (cs : List Char), cs.length = 2 * n →
    (∀ c ∈ cs, (hexVal c).isSome) → (hexDecode cs).length = n := by
  intro n
  induction n with
  | zero =>
    intro cs h _
    rw [List.length_eq_zero.mp h]
    rfl
  | succ m ih =>
    intro cs h hall
    match cs with
    | [] => simp at h
    | [c] => simp at h; omega
    | c1 :: c2 :: rest =>
      obtain ⟨v1, hv1⟩ := Option.isSome_iff_exists.mp (hall c1 (by simp))
      obtain ⟨v2, hv2⟩ := Option.isSome_iff_exists.mp (hall c2 (by simp))
      rw [hexDecode, hv1, hv2]
      simp only [List.length_cons]
      rw [ih rest (by simp at h; omega) (fun c hc => hall c (by simp [hc]))]

/-- Node's hex decoder stops silently at the first invalid pair, so any
non-hex character among `2 * n` digits forces strictly fewer than `n`
output bytes. -/
theorem hexDecode_length_lt : ∀ (n : Nat) (cs : List Char), cs.length = 2 * n →
    (∃ c ∈ cs, hexVal c = none) → (hexDecode cs).length < n := by
  intro n
  induction n with
  | zero =>
    intro cs h hex
    rw [List.length_eq_zero.mp h] at hex
    simp at hex
  | succ m ih =>
    intro cs h hex
    match cs with
    | [] => simp at h
    | [c] => simp at h; omega
    | c1 :: c2 :: rest =>
      cases hv1 : hexVal c1 with
      | none =>
        simp only [hexDecode, hv1, List.length_nil]
        omega
      | some v1 =>
        cases hv2 : hexVal c2 with
        | none =>
          simp only [hexDecode, hv1, hv2, List.length_nil]
          omega
        | some v2 =>
          have hrest : ∃ c ∈ rest, hexVal c = none := by
            obtain ⟨c, hc, hcn⟩ := hex
            rcases List.mem_cons.mp hc with rfl | hc2
            · rw [hv1] at hcn
              cases hcn
            · rcases List.mem_cons.mp hc2 with rfl | hc3
              · rw [hv2] at hcn
                cases hcn
              · exact ⟨c, hc3, hcn⟩
          have hlt := ih rest (by simp at h; omega) hrest
          simp only [hexDecode, hv1, hv2, List.length_cons]
          omega

/-- C8 (amended): `parseMacAddress` strips every `':'` and `'-'` and fails
with the format error unless exactly 12 characters remain — hex-ness is not
validated; when it succeeds it returns Node's silent hex decoding of those
12 characters, which is exactly 6 bytes precisely when all 12 are hex
digits — and strictly fewer than 6 bytes (never an error) when any of the
12 is not a hex digit. -/
theorem parseMacAddress_length_spec :
    (∀ s : List Char,
      (∃ b, parseMacAddress s = .ok b) ↔
        (s.filter (fun c => ¬(c = ':' ∨ c = '-'))).length = 12) ∧
    (∀ (s : List Char) (b : List Nat), parseMacAddress s = .ok b →
      (b.length = 6 ↔
        ∀ c ∈ s.filter (fun c => ¬(c = ':' ∨ c = '-')), (hexVal c).isSome)) := by
  constructor
  · intro s
    unfold parseMacAddress
    constructor
    · rintro ⟨b, hb⟩
      by_contra hne
      rw [if_pos hne] at hb
      cases hb
    · intro h12
      rw [if_neg (not_not_intro h12)]
      exact ⟨_, rfl⟩
  · intro s b hb
    unfold parseMacAddress at hb
    by_cases h : (s.filter (fun c => ¬(c = ':' ∨ c = '-'))).length ≠ 12
    · rw [if_pos h] at hb
      cases hb
    · rw [if_neg h] at hb
      injection hb with hb'
      rw [← hb']
      constructor
      · intro h6
        by_contra hnall
        obtain ⟨c, hc⟩ := not_forall.mp hnall
        obtain ⟨hcm, hcn⟩ := Classical.not_imp.mp hc
        have hlt := hexDecode_length_lt 6 _ (by omega)
          ⟨c, hcm, Option.not_isSome_iff_eq_none.mp hcn⟩
        omega
      · exact hexDecode_length 6 _ (by omega)

/-- Counterexample to C8 as stated: 12 non-hex characters pass the length
check, so `parseMacAddress` succeeds (the claim demands a `FormatError`),
and Node's hex decoder silently yields zero bytes, not 6. -/
theorem parseMacAddress_counterexample :
    parseMacAddress (List.replicate 12 'G') = .ok [] ∧
    ([] : List Nat).length ≠ 6 :=
  ⟨rfl, by decide⟩

/-- Witness: the 12-character law and 6-byte decoding at the repository's
documented identifier `00:12:4B:32:89:BB`. -/
theorem parseMacAddress_length_spec_witness :
    ((∃ b, parseMacAddress
        ['0', '0', ':', '1', '2', ':', '4', 'B', ':', '3', '2', ':', '8', '9', ':', 'B', 'B'] =
        .ok b) ↔
      ((['0', '0', ':', '1', '2', ':', '4', 'B', ':', '3', '2', ':', '8', '9', ':', 'B', 'B'].filter
        (fun c => ¬(c = ':' ∨ c = '-'))).length = 12)) ∧
    (([0x00, 0x12, 0x4B, 0x32, 0x89, 0xBB] : List Nat).length = 6 ↔
      ∀ c ∈ (['0', '0', ':', '1', '2', ':', '4', 'B', ':', '3', '2', ':', '8', '9', ':', 'B', 'B'].filter
        (fun c => ¬(c = ':' ∨ c = '-'))), (hexVal c).isSome) :=
  ⟨parseMacAddress_length_spec.1 _,
   parseMacAddress_length_spec.2
     ['0', '0', ':', '1', '2', ':', '4', 'B', ':', '3', '2', ':', '8', '9', ':', 'B', 'B']
     [0x00, 0x12, 0x4B, 0x32, 0x89, 0xBB] rfl⟩

/-- Membership in the group-aggregation fold: a device id is collected
exactly when it was already in the accumulator or some listed group reads
successfully and contains it. -/
theorem mem_groupFold {ε : Type} (rg : Nat → Except ε GroupReadResult) :
    ∀ (gids : List Nat) (acc : Finset Nat) (d : Nat),
      (d ∈ gids.foldl (fun acc gid =>
        match rg gid with
        | .ok res => acc ∪ res.deviceIds.toFinset
        | .error _ => acc) acc ↔
      d ∈ acc ∨ ∃ g ∈ gids, ∃ res, rg g = .ok res ∧ d ∈ res.deviceIds) := by
  intro gids
  induction gids with
  | nil => intro acc d; simp
  | cons g gs ih =>
    intro acc d
    simp only [List.foldl_cons]
    cases hrg : rg g with
    | ok res =>
      rw [ih]
      constructor
      · rintro (h | ⟨g', hg', res', hres', hd⟩)
        · rcases Finset.mem_union.mp (h : d ∈ acc ∪ res.deviceIds.toFinset) with h' | h'
          · exact Or.inl h'
          · exact Or.inr ⟨g, by simp, res, hrg, List.mem_toFinset.mp h'⟩
        · exact Or.inr ⟨g', by simp [hg'], res', hres', hd⟩
      · rintro (h | ⟨g', hg', res', hres', hd⟩)
        · exact Or.inl (show d ∈ acc ∪ res.deviceIds.toFinset from
            Finset.mem_union_left _ h)
        · rcases List.mem_cons.mp hg' with heq | hg''
          · rw [heq, hrg] at hres'
            injection hres' with he
            exact Or.inl (show d ∈ acc ∪ res.deviceIds.toFinset from
              Finset.mem_union_right _ (List.mem_toFinset.mpr (by rw [he]; exact hd)))
          · exact Or.inr ⟨g', hg'', res', hres', hd⟩
    | error e =>
      rw [ih]
      constructor
      · rintro (h | ⟨g', hg', res', hres', hd⟩)
        · exact Or.inl h
        · exact Or.inr ⟨g', by simp [hg'], res', hres', hd⟩
      · rintro (h | ⟨g', hg', res', hres', hd⟩)
        · exact Or.inl h
        · rcases List.mem_cons.mp hg' with heq | hg''
          · rw [heq, hrg] at hres'
            cases hres'
          · exact Or.inr ⟨g', hg'', res', hres', hd⟩

/-- C9: `getGroupedDeviceIds` is total (it never rejects — the embedding
returns a plain set): a failed group listing yields the empty set, and on a
successful listing the result contains exactly the member ids of the
readable groups — a group whose read fails is silently omitted while all
other groups' members are still included. -/
theorem getGroupedDeviceIds_skips_failures {ε : Type}
    (listGroups : Except ε (List Nat))
    (readGroup : Nat → Except ε GroupReadResult) :
    (∀ e, listGroups = .error e →
      getGroupedDeviceIds listGroups readGroup = ∅) ∧
    (∀ gids, listGroups = .ok gids → ∀ d,
      d ∈ getGroupedDeviceIds listGroups readGroup ↔
        ∃ g ∈ gids, ∃ res, readGroup g = .ok res ∧ d ∈ res.deviceIds) := by
  constructor
  · intro e he
    rw [getGroupedDeviceIds.eq_def, he]
  · intro gids hg d
    rw [getGroupedDeviceIds.eq_def, hg]
    rw [mem_groupFold readGroup gids ∅ d]
    simp

/-- Witness: aggregation over two groups, the second unreadable — the first
group's member is still collected, and a failed listing yields `∅`. -/
theorem getGroupedDeviceIds_skips_failures_witness :
    getGroupedDeviceIds (Except.error () : Except Unit (List Nat))
      (fun g => if g = 1 then .ok ⟨1, true, [10, 11]⟩ else .error ()) = ∅ ∧
    (10 ∈ getGroupedDeviceIds (Except.ok [1, 2] : Except Unit (List Nat))
        (fun g => if g = 1 then .ok ⟨1, true, [10, 11]⟩ else .error ()) ↔
      ∃ g ∈ [1, 2], ∃ res,
        (fun g => if g = 1 then Except.ok (⟨1, true, [10, 11]⟩ : GroupReadResult)
          else Except.error ()) g = .ok res ∧ 10 ∈ res.deviceIds) :=
  ⟨(getGroupedDeviceIds_skips_failures _ _).1 () rfl,
   (getGroupedDeviceIds_skips_failures _ _).2 [1, 2] rfl 10⟩
